import Mathlib

/-!
Verification of the trade-reconstruction and performance-analytics core of
the nofx trading service, as described by its specification and pinned by
the tests in src/logger.  The Go implementation file of the logger package
is not part of the provided sources, so every definition below is modelled
from the specification (sections 3, 4, 6 and 7), with concrete expected
values taken from the package's test files.  Floating-point values are
modelled as exact rationals.
-/

/-- Modelled from the spec: one trading instruction within a decision event
(spec section 3, DecisionAction).  Prices and quantities are rationals,
timestamps are naturals. -/
structure DecisionAction where
  action : String := ""
  symbol : String := ""
  quantity : ℚ := 0
  price : ℚ := 0
  leverage : ℕ := 0
  timestamp : ℕ := 0
  success : Bool := true
deriving DecidableEq

/-- Modelled from the spec: a per-symbol position snapshot carried by a
decision event (spec section 3); the core only reads it. -/
structure PositionSnapshot where
  symbol : String := ""
  side : String := ""
  positionAmt : ℚ := 0
  entryPrice : ℚ := 0
deriving DecidableEq

/-- Modelled from the spec: the account snapshot carried by every decision
event (total balance / equity at that instant). -/
structure AccountSnapshot where
  totalBalance : ℚ := 0
deriving DecidableEq

/-- Modelled from the spec: one logged decision cycle (spec section 3,
DecisionEvent; called DecisionRecord in the tests). -/
structure DecisionRecord where
  timestamp : ℕ := 0
  cycleNumber : ℕ := 0
  exchange : String := ""
  success : Bool := true
  decisions : List DecisionAction := []
  positions : List PositionSnapshot := []
  accountState : AccountSnapshot := {}
deriving DecidableEq

/-- Modelled from the spec: a completed trade emitted by the Trade
Reconstructor (spec section 3, TradeOutcome). -/
structure TradeOutcome where
  symbol : String := ""
  side : String := ""
  openPrice : ℚ := 0
  closePrice : ℚ := 0
  quantity : ℚ := 0
  pnl : ℚ := 0
  openTime : ℕ := 0
  closeTime : ℕ := 0
deriving DecidableEq, Inhabited

/-- Modelled from the spec: the per-symbol open-position state of the Trade
Reconstructor (spec section 3, OpenPositionState). -/
structure OpenPositionState where
  side : String
  entryPrice : ℚ
  quantityRemaining : ℚ
  originalQuantity : ℚ
  openTime : ℕ
  accPnL : ℚ
  accFees : ℚ
  lastClosePrice : ℚ
  closeTime : ℕ
deriving DecidableEq

/-- Modelled from the spec: an equity snapshot, one per logged decision
event (spec section 3, EquityPoint). -/
structure EquityPoint where
  timestamp : ℕ := 0
  equity : ℚ := 0
deriving DecidableEq, Inhabited

/-- Modelled from the spec: the state owned by one Performance Analyzer
instance: the persisted log (oldest first, append order), the two bounded
newest-first caches, and the map of live open positions (spec section 5,
shared resource). -/
structure LoggerState where
  log : List DecisionRecord := []
  tradesCache : List TradeOutcome := []
  equityCache : List EquityPoint := []
  openPositions : List (String × OpenPositionState) := []
deriving DecidableEq

/-- Modelled from the spec: the derived performance snapshot
(spec section 3, PerformanceSnapshot).  The Sharpe ratio is derived
separately by the Sharpe Calculator over the equity cache. -/
structure PerformanceAnalysis where
  totalTrades : ℕ
  winningTrades : ℕ
  losingTrades : ℕ
  winRate : ℚ
  recentTrades : List TradeOutcome
deriving DecidableEq

/-- Modelled from the spec: the trades cache holds at most 100 entries
(spec sections 3 and 6). -/
def tradesCacheCap : ℕ := 100

/-- Modelled from the spec: the equity cache holds at most 200 entries
(spec sections 3 and 6). -/
def equityCacheCap : ℕ := 200

/-- Modelled from the spec: tolerance for floating error when deciding that
a position's remaining quantity reached zero (spec section 3, e.g. 1e-9). -/
def epsQty : ℚ := 1 / 1000000000

/-- Modelled from the spec: the Fee Model, a case-sensitive exact match
against a fixed table of taker-fee rates with a 0.05 percent default for
unknown or empty identifiers (spec section 4.1; the concrete rates are
pinned by TestGetTakerFeeRate). -/
def getTakerFeeRate (exchange : String) : ℚ :=
  if exchange = "aster" then 35 / 100000
  else if exchange = "hyperliquid" then 45 / 100000
  else if exchange = "binance" then 5 / 10000
  else 5 / 10000

/-- Modelled from the spec: push into a bounded newest-first cache,
inserting at the front and evicting from the back when the capacity is
exceeded (spec section 4.2). -/
def pushBounded (cap : ℕ) (x : α) (cache : List α) : List α :=
  (x :: cache).take cap

/-- Modelled from the spec: whether an action kind opens a position. -/
def isOpenKind (s : String) : Bool :=
  s == "open_long" || s == "open_short"

/-- Modelled from the spec: whether an action kind closes (part of) a
position. -/
def isCloseKind (s : String) : Bool :=
  s == "partial_close" || s == "close_long" || s == "close_short"

/-- Modelled from the spec: the open-position state created by an open
action when no state exists for the symbol (spec section 4.3, step 1). -/
def mkOpenState (a : DecisionAction) : OpenPositionState :=
  { side := if a.action == "open_long" then "long" else "short"
    entryPrice := a.price
    quantityRemaining := a.quantity
    originalQuantity := a.quantity
    openTime := a.timestamp
    accPnL := 0
    accFees := 0
    lastClosePrice := a.price
    closeTime := a.timestamp }

/-- Modelled from the spec: apply one closing slice to an open position
(spec section 4.3, step 2).  The closed quantity is clamped to the
remaining quantity; a close action whose quantity field is zero (an absent
field in the serialized record) closes the entire remaining quantity, as
pinned by the tests that log full closes with no quantity.  The slice's
realized PnL is the price-difference PnL minus the open-side and
close-side taker fees on the closed quantity. -/
def applyCloseSlice (feeRate : ℚ) (a : DecisionAction) (st : OpenPositionState) :
    OpenPositionState :=
  let requested := if a.quantity = 0 then st.quantityRemaining else a.quantity
  let closedQty := min requested st.quantityRemaining
  let gross :=
    if st.side == "long" then closedQty * (a.price - st.entryPrice)
    else closedQty * (st.entryPrice - a.price)
  let fee := closedQty * st.entryPrice * feeRate + closedQty * a.price * feeRate
  { st with
    accPnL := st.accPnL + (gross - fee)
    accFees := st.accFees + fee
    quantityRemaining := st.quantityRemaining - closedQty
    lastClosePrice := a.price
    closeTime := a.timestamp }

/-- Modelled from the spec: the TradeOutcome emitted when a position's
remaining quantity reaches zero (spec section 4.3, step 2f). -/
def finishOutcome (sym : String) (st : OpenPositionState) : TradeOutcome :=
  { symbol := sym
    side := st.side
    openPrice := st.entryPrice
    closePrice := st.lastClosePrice
    quantity := st.originalQuantity
    pnl := st.accPnL
    openTime := st.openTime
    closeTime := st.closeTime }

/-- Remove the open-position entry for a symbol. -/
def removePos (sym : String) (ps : List (String × OpenPositionState)) :
    List (String × OpenPositionState) :=
  ps.filter (fun p => p.1 != sym)

/-- Replace (or insert) the open-position entry for a symbol. -/
def setPos (sym : String) (st : OpenPositionState)
    (ps : List (String × OpenPositionState)) : List (String × OpenPositionState) :=
  (sym, st) :: removePos sym ps

/-- Modelled from the spec: the Trade Reconstructor's handling of a single
action (spec section 4.3).  Open actions create a state when none exists;
close actions with a matching state apply a slice and emit a TradeOutcome
when the remaining quantity falls within the zero tolerance; hold and wait
actions and closes with no matching state are ignored. -/
def processAction (feeRate : ℚ) (ps : List (String × OpenPositionState))
    (a : DecisionAction) : List (String × OpenPositionState) × Option TradeOutcome :=
  if isOpenKind a.action then
    match List.lookup a.symbol ps with
    | some _ => (ps, none)
    | none => ((a.symbol, mkOpenState a) :: ps, none)
  else if isCloseKind a.action then
    match List.lookup a.symbol ps with
    | none => (ps, none)
    | some st =>
      let st2 := applyCloseSlice feeRate a st
      if st2.quantityRemaining ≤ epsQty then
        (removePos a.symbol ps, some (finishOutcome a.symbol st2))
      else
        (setPos a.symbol st2 ps, none)
  else (ps, none)

/-- Modelled from the spec: process all actions of an event in listed
order, collecting every emitted TradeOutcome (spec section 4.3). -/
def processDecisions (feeRate : ℚ) (ps : List (String × OpenPositionState))
    (actions : List DecisionAction) :
    List (String × OpenPositionState) × List TradeOutcome :=
  actions.foldl
    (fun acc a =>
      let r := processAction feeRate acc.1 a
      (r.1, match r.2 with
            | none => acc.2
            | some t => acc.2 ++ [t]))
    (ps, [])

/-- Modelled from the spec: push one completed trade into the bounded
trades cache (newest first, capacity 100). -/
def addTradeToCache (st : LoggerState) (t : TradeOutcome) : LoggerState :=
  { st with tradesCache := pushBounded tradesCacheCap t st.tradesCache }

/-- Modelled from the spec: feed one event to the Trade Reconstructor and
the Equity Sampler and push the results into the caches (spec sections
4.3, 4.4 and 4.6); the equity point is pushed for every event, whether or
not it carries trading actions. -/
def ingestRecord (st : LoggerState) (r : DecisionRecord) : LoggerState :=
  let feeRate := getTakerFeeRate r.exchange
  let pr := processDecisions feeRate st.openPositions r.decisions
  let st1 := pr.2.foldl addTradeToCache st
  { st1 with
    openPositions := pr.1
    equityCache :=
      pushBounded equityCacheCap
        { timestamp := r.timestamp, equity := r.accountState.totalBalance }
        st.equityCache }

/-- Modelled from the spec: LogDecision appends the event to the persisted
log and only then updates the in-memory state; a failed append (modelled
by the appendErr argument of the external collaborator call) propagates as
the call's error and leaves the state untouched (spec sections 4.6 and 7,
append-then-update ordering). -/
def logDecision (st : LoggerState) (r : DecisionRecord) (appendErr : Option String) :
    Except String Unit × LoggerState :=
  match appendErr with
  | some e => (Except.error e, st)
  | none => (Except.ok (), ingestRecord { st with log := st.log ++ [r] } r)

/-- Run a sequence of successful LogDecision calls. -/
def runLog (st : LoggerState) (rs : List DecisionRecord) : LoggerState :=
  rs.foldl (fun s r => (logDecision s r none).2) st

/-- The logger state of a freshly started process: empty history and empty
caches. -/
def emptyLogger : LoggerState := {}

/-- Clear the in-memory caches and open positions, keeping the persisted
log. -/
def resetCaches (st : LoggerState) : LoggerState :=
  { log := st.log, tradesCache := [], equityCache := [], openPositions := [] }

/-- Modelled from the spec: the one-time cold-start rehydration: scan the
persisted log from the beginning, replaying every event through the Trade
Reconstructor and Equity Sampler exactly once, populating both caches
(spec section 4.6). -/
def rehydrate (st : LoggerState) : LoggerState :=
  st.log.foldl ingestRecord (resetCaches st)

/-- Modelled from the spec: aggregate the current cache contents into a
performance snapshot (spec section 4.6): TotalTrades is the cache size,
WinningTrades counts trades with positive PnL, LosingTrades counts trades
with negative PnL (a zero-PnL trade counts toward the total only), WinRate
is Winning over Total times 100 (0 when the total is 0), RecentTrades is
the cache snapshot capped at the caller's limit. -/
def analyzeFromCaches (st : LoggerState) (limit : ℕ) : PerformanceAnalysis :=
  let cache := st.tradesCache
  let total := cache.length
  let winning := (cache.filter (fun t => decide (0 < t.pnl))).length
  let losing := (cache.filter (fun t => decide (t.pnl < 0))).length
  { totalTrades := total
    winningTrades := winning
    losingTrades := losing
    winRate := if total = 0 then 0 else (winning : ℚ) / (total : ℚ) * 100
    recentTrades := cache.take limit }

/-- Modelled from the spec: the cache-first performance path: rehydrate
once if and only if the trades cache is empty, then aggregate from the
caches (spec section 4.6).  Returns the snapshot together with the
possibly-hydrated state. -/
def getPerformanceWithCache (st : LoggerState) (limit : ℕ) :
    PerformanceAnalysis × LoggerState :=
  let st2 := if st.tradesCache.isEmpty then rehydrate st else st
  (analyzeFromCaches st2 limit, st2)

/-- ASCII lowercasing of one character (the action kinds compared
case-insensitively are plain ASCII identifiers). -/
def lowerChar (c : Char) : Char :=
  if 65 ≤ c.toNat ∧ c.toNat ≤ 90 then Char.ofNat (c.toNat + 32) else c

/-- ASCII lowercasing of a string, modelling the case folding applied to
action kinds before the no-op comparison. -/
def lowerString (s : String) : String := ⟨s.data.map lowerChar⟩

/-- Modelled from the spec: whether an event contains at least one
DecisionAction whose kind, case-insensitively, is neither hold nor wait
(spec section 4.7). -/
def hasRealAction (r : DecisionRecord) : Bool :=
  r.decisions.any (fun a =>
    !(lowerString a.action == "hold" || lowerString a.action == "wait"))

/-- Modelled from the spec: the Filtered Record Reader: scan the persisted
log newest-to-oldest and return the first limit events, keeping only
events with a real trading action when the filter flag is set (spec
section 4.7). -/
def getLatestRecordsWithFilter (st : LoggerState) (limit : ℕ)
    (onlyWithActions : Bool) : List DecisionRecord :=
  let newestFirst := st.log.reverse
  if onlyWithActions then (newestFirst.filter hasRealAction).take limit
  else newestFirst.take limit

/-- Modelled from the spec: simple period returns of a chronological equity
series, treating a step with a zero previous equity as a zero return
(spec section 4.5). -/
def periodReturns : List ℚ → List ℚ
  | [] => []
  | [_] => []
  | a :: b :: rest => (if a = 0 then 0 else (b - a) / a) :: periodReturns (b :: rest)

/-- Mean of a list of rationals (0 on the empty list). -/
def listMean (xs : List ℚ) : ℚ := xs.sum / (xs.length : ℚ)

/-- Population variance of a list of rationals (the fixed, documented
choice of spec section 4.5). -/
def listVariance (xs : List ℚ) : ℚ :=
  (xs.map (fun r => (r - listMean xs) ^ 2)).sum / (xs.length : ℚ)

/-- Modelled from the spec: the Sharpe Calculator over the equity cache
(spec section 4.5): with fewer than 2 points, or no returns, or zero
variance of the returns, the result is 0; otherwise it is the mean return
divided by the standard deviation.  The square-root step is abstracted as
an argument because every claim about the calculator concerns only the
degenerate zero paths, which are decided before it is consulted. -/
def calculateSharpeRatioFromEquity (sqrtFn : ℚ → ℚ) (st : LoggerState) : ℚ :=
  if st.equityCache.length < 2 then 0
  else
    let chron := (st.equityCache.map (fun p => p.equity)).reverse
    let rs := periodReturns chron
    if rs.length = 0 then 0
    else if listVariance rs = 0 then 0
    else listMean rs / sqrtFn (listVariance rs)

/-- A concrete numbered trade, used to exercise the trades-cache bound
(mirrors the numbered trades of TestTradesCache_SizeLimit). -/
def mkNumberedTrade (i : ℕ) : TradeOutcome :=
  { symbol := "BTCUSDT", side := "long", openPrice := 50000, closePrice := 51000,
    pnl := (i : ℚ) }

/-- A concrete action-free decision record with a numbered balance, used to
exercise the equity-cache bound (mirrors TestEquityCacheMaxSize). -/
def mkNumberedHold (i : ℕ) : DecisionRecord :=
  { timestamp := i, cycleNumber := i + 1, exchange := "binance",
    accountState := { totalBalance := 10000 + (i : ℚ) } }

/-- The opening action of the aster example (TestAnalyzePerformance_WithFees):
open_long 0.002 BTCUSDT at 103960.7. -/
def c1OpenAction : DecisionAction :=
  { action := "open_long", symbol := "BTCUSDT", quantity := 2 / 1000,
    price := 1039607 / 10, leverage := 5, timestamp := 100 }

/-- The closing action of the aster example: close_long 0.002 BTCUSDT at
103425.3. -/
def c1CloseAction : DecisionAction :=
  { action := "close_long", symbol := "BTCUSDT", quantity := 2 / 1000,
    price := 1034253 / 10, leverage := 5, timestamp := 200 }

/-- The aster example run: log the open, then the close. -/
def c1Run : LoggerState :=
  runLog emptyLogger
    [{ timestamp := 100, cycleNumber := 1, exchange := "aster",
       decisions := [c1OpenAction] },
     { timestamp := 200, cycleNumber := 2, exchange := "aster",
       decisions := [c1CloseAction] }]

/-- The hyperliquid partial-close example run
(TestAnalyzePerformance_PartialCloseWithFees): open_long 1.0 ETHUSDT at
2000, partial_close 0.5 at 2100, close_long 0.5 at 2150. -/
def c2Run : LoggerState :=
  runLog emptyLogger
    [{ timestamp := 100, cycleNumber := 1, exchange := "hyperliquid",
       decisions := [{ action := "open_long", symbol := "ETHUSDT", quantity := 1,
                       price := 2000, leverage := 10, timestamp := 100 }] },
     { timestamp := 200, cycleNumber := 2, exchange := "hyperliquid",
       decisions := [{ action := "partial_close", symbol := "ETHUSDT",
                       quantity := 1 / 2, price := 2100, timestamp := 200 }] },
     { timestamp := 300, cycleNumber := 3, exchange := "hyperliquid",
       decisions := [{ action := "close_long", symbol := "ETHUSDT",
                       quantity := 1 / 2, price := 2150, timestamp := 300 }] }]

/-- The snapshot served after the hyperliquid partial-close example. -/
def c2Analysis : PerformanceAnalysis := (getPerformanceWithCache c2Run 10).1

/-- The opening action of the zero-quantity-close example
(TestTradesCache_NoDuplicatesOnReAnalyze): open_long 1.0 BTCUSDT at 50000
on binance. -/
def c8OpenAction : DecisionAction :=
  { action := "open_long", symbol := "BTCUSDT", quantity := 1,
    price := 50000, leverage := 5, timestamp := 100 }

/-- The closing action of the zero-quantity-close example: close_long
BTCUSDT at 51000 with no quantity field (Go zero value 0). -/
def c8CloseAction : DecisionAction :=
  { action := "close_long", symbol := "BTCUSDT", price := 51000, timestamp := 200 }

/-- The zero-quantity-close example run. -/
def c8Run : LoggerState :=
  runLog emptyLogger
    [{ timestamp := 100, cycleNumber := 1, exchange := "binance",
       decisions := [c8OpenAction] },
     { timestamp := 200, cycleNumber := 2, exchange := "binance",
       decisions := [c8CloseAction] }]

/-- One open/close pair of the ten-trade consistency example
(TestPerformanceDataConsistency), on binance. -/
def c4Trade (sym side : String) (openP closeP qty : ℚ) (i : ℕ) :
    List DecisionRecord :=
  [{ timestamp := 10 * i + 1, cycleNumber := 2 * i + 1, exchange := "binance",
     decisions := [{ action := if side == "long" then "open_long" else "open_short",
                     symbol := sym, quantity := qty, price := openP, leverage := 10,
                     timestamp := 10 * i + 1 }] },
   { timestamp := 10 * i + 5, cycleNumber := 2 * i + 2, exchange := "binance",
     decisions := [{ action := if side == "long" then "close_long" else "close_short",
                     symbol := sym, quantity := qty, price := closeP,
                     timestamp := 10 * i + 5 }] }]

/-- The ten sequential trades of the consistency example: six net-positive
and four net-negative after binance fees. -/
def c4Records : List DecisionRecord :=
  c4Trade "BTC" "long" 50000 51000 (1 / 10) 0 ++ c4Trade "ETH" "long" 3000 3100 1 1 ++
  c4Trade "BTC" "short" 51000 50500 (1 / 10) 2 ++ c4Trade "ETH" "short" 3100 3150 1 3 ++
  c4Trade "BTC" "long" 50500 51500 (1 / 10) 4 ++ c4Trade "SOL" "long" 100 95 5 5 ++
  c4Trade "BTC" "short" 51500 51000 (1 / 10) 6 ++ c4Trade "ETH" "long" 3150 3100 1 7 ++
  c4Trade "SOL" "short" 95 90 5 8 ++ c4Trade "BTC" "long" 51000 50800 (1 / 10) 9

/-- The snapshot served after the ten-trade consistency example. -/
def c4Analysis : PerformanceAnalysis :=
  (getPerformanceWithCache (runLog emptyLogger c4Records) 100).1

/-- One record of the filter example (TestGetLatestRecordsWithFilter): a
real open_long action when the flag is set, no actions otherwise. -/
def c6Record (cycle : ℕ) (real : Bool) : DecisionRecord :=
  { timestamp := cycle, cycleNumber := cycle,
    decisions :=
      if real then [{ action := "open_long", symbol := "BTC", price := 50000 }]
      else [] }

/-- The filter example history: ten logged events of which only the
cycles 1, 4 and 8 carry a real action. -/
def c6State : LoggerState :=
  { log := [c6Record 1 true, c6Record 2 false, c6Record 3 false, c6Record 4 true,
            c6Record 5 false, c6Record 6 false, c6Record 7 false, c6Record 8 true,
            c6Record 9 false, c6Record 10 false] }

/-! Helper lemmas shared by several claims. -/

/-- Pushing trades into the cache never touches the persisted log. -/
lemma foldl_addTrade_log (ts : List TradeOutcome) (st : LoggerState) :
    (ts.foldl addTradeToCache st).log = st.log := by
  induction ts generalizing st with
  | nil => rfl
  | cons t ts ih => simpa [addTradeToCache] using ih _

/-- Ingesting an event never touches the persisted log. -/
lemma ingestRecord_log (st : LoggerState) (r : DecisionRecord) :
    (ingestRecord st r).log = st.log := by
  simp [ingestRecord, foldl_addTrade_log]

/-- Replaying a list of events never touches the persisted log. -/
lemma foldl_ingest_log (rs : List DecisionRecord) (st : LoggerState) :
    (rs.foldl ingestRecord st).log = st.log := by
  induction rs generalizing st with
  | nil => rfl
  | cons r rs ih => rw [List.foldl_cons, ih, ingestRecord_log]

/-- Rehydration keeps the persisted log intact. -/
lemma rehydrate_log (st : LoggerState) : (rehydrate st).log = st.log := by
  simp [rehydrate, foldl_ingest_log, resetCaches]

/-- Rehydration is idempotent: replaying the same log from cleared caches a
second time rebuilds exactly the same state. -/
lemma rehydrate_rehydrate (st : LoggerState) :
    rehydrate (rehydrate st) = rehydrate st := by
  have hlog : (rehydrate st).log = st.log := rehydrate_log st
  have hreset : resetCaches (rehydrate st) = resetCaches st := by
    simp [resetCaches, hlog]
  calc rehydrate (rehydrate st)
      = (rehydrate st).log.foldl ingestRecord (resetCaches (rehydrate st)) := rfl
    _ = st.log.foldl ingestRecord (resetCaches st) := by rw [hlog, hreset]
    _ = rehydrate st := rfl

/-- C3: with no intervening LogDecision, a second GetPerformanceWithCache
call changes nothing: it performs no duplicate insertion into the caches
and returns a snapshot identical to the first call's (same TotalTrades,
WinningTrades, LosingTrades and RecentTrades); moreover when the trades
cache is already non-empty the call does not rehydrate at all, leaving the
state untouched. -/
theorem getPerformanceWithCache_idempotent :
    (∀ (st : LoggerState) (limit : ℕ),
      getPerformanceWithCache (getPerformanceWithCache st limit).2 limit
        = getPerformanceWithCache st limit) ∧
    (∀ (st : LoggerState) (limit : ℕ), st.tradesCache.isEmpty = false →
      (getPerformanceWithCache st limit).2 = st) := by
  constructor
  · intro st limit
    by_cases h : st.tradesCache.isEmpty
    · by_cases h2 : (rehydrate st).tradesCache.isEmpty
      · simp [getPerformanceWithCache, h, h2, rehydrate_rehydrate]
      · simp [getPerformanceWithCache, h, h2]
    · simp [getPerformanceWithCache, h]
  · intro st limit h
    simp [getPerformanceWithCache, h]

/-- Witness for C3: a state whose trades cache holds one trade is returned
untouched by GetPerformanceWithCache. -/
theorem getPerformanceWithCache_idempotent_witness :
    (addTradeToCache emptyLogger {}).tradesCache.isEmpty = false ∧
    (getPerformanceWithCache (addTradeToCache emptyLogger {}) 5).2
      = addTradeToCache emptyLogger {} :=
  ⟨rfl, getPerformanceWithCache_idempotent.2 (addTradeToCache emptyLogger {}) 5 rfl⟩

/-- C7: the Sharpe calculator degrades to 0 instead of failing on
insufficient data: with fewer than two equity points, or whenever the
period returns of the cached equity series have zero variance (hence zero
standard deviation), the result is 0, for any square-root
implementation. -/
theorem sharpe_degenerate_zero :
    ∀ (sqrtFn : ℚ → ℚ) (st : LoggerState),
      (st.equityCache.length < 2 → calculateSharpeRatioFromEquity sqrtFn st = 0) ∧
      (listVariance (periodReturns ((st.equityCache.map (fun p => p.equity)).reverse)) = 0 →
        calculateSharpeRatioFromEquity sqrtFn st = 0) := by
  intro sqrtFn st
  constructor
  · intro h
    simp [calculateSharpeRatioFromEquity, h]
  · intro h
    simp only [calculateSharpeRatioFromEquity]
    split_ifs with h1 h2 h3 <;> try rfl
    all_goals exact absurd h h3

/-- Witness for C7: a single-point equity cache and a three-point constant
equity cache (zero-variance returns) both yield Sharpe ratio 0. -/
theorem sharpe_degenerate_zero_witness :
    ((LoggerState.mk [] [] [{ timestamp := 1, equity := 10000 }] []).equityCache.length < 2 ∧
      calculateSharpeRatioFromEquity id
        (LoggerState.mk [] [] [{ timestamp := 1, equity := 10000 }] []) = 0) ∧
    (listVariance (periodReturns
        (((LoggerState.mk [] []
            [{ timestamp := 3, equity := 10000 }, { timestamp := 2, equity := 10000 },
             { timestamp := 1, equity := 10000 }] []).equityCache.map
          (fun p => p.equity)).reverse)) = 0 ∧
      calculateSharpeRatioFromEquity id
        (LoggerState.mk [] []
          [{ timestamp := 3, equity := 10000 }, { timestamp := 2, equity := 10000 },
           { timestamp := 1, equity := 10000 }] []) = 0) := by
  have hvar : listVariance (periodReturns
      (((LoggerState.mk [] []
          [{ timestamp := 3, equity := 10000 }, { timestamp := 2, equity := 10000 },
           { timestamp := 1, equity := 10000 }] []).equityCache.map
        (fun p => p.equity)).reverse)) = 0 := by
    norm_num [periodReturns, listVariance, listMean]
  exact ⟨⟨by norm_num, (sharpe_degenerate_zero id _).1 (by norm_num)⟩,
    ⟨hvar, (sharpe_degenerate_zero id _).2 hvar⟩⟩

/-- C9: the Fee Model is a pure, case-sensitive lookup in a fixed table:
aster maps to 0.00035, hyperliquid to 0.00045, binance to 0.0005, and
every other identifier, the empty string included, falls back to the
0.0005 default. -/
theorem getTakerFeeRate_table :
    getTakerFeeRate "aster" = 35 / 100000 ∧
    getTakerFeeRate "hyperliquid" = 45 / 100000 ∧
    getTakerFeeRate "binance" = 5 / 10000 ∧
    getTakerFeeRate "" = 5 / 10000 ∧
    getTakerFeeRate "Aster" = 5 / 10000 ∧
    (∀ s : String, s ≠ "aster" → s ≠ "hyperliquid" → s ≠ "binance" →
      getTakerFeeRate s = 5 / 10000) := by
  refine ⟨rfl, rfl, rfl, rfl, rfl, ?_⟩
  intro s h1 h2 h3
  simp [getTakerFeeRate, h1, h2, h3]

/-- Witness for C9: the unknown identifier used by the tests gets the
default rate. -/
theorem getTakerFeeRate_table_witness :
    ("unknown_exchange" : String) ≠ "aster" ∧
    getTakerFeeRate "unknown_exchange" = 5 / 10000 :=
  ⟨by decide,
    getTakerFeeRate_table.2.2.2.2.2 "unknown_exchange" (by decide) (by decide) (by decide)⟩

/-- Truncating the appended list before a bounded take changes nothing. -/
lemma take_append_take (l m : List α) (cap : ℕ) :
    (l ++ m.take cap).take cap = (l ++ m).take cap := by
  rw [List.take_append_eq_append_take, List.take_append_eq_append_take, List.take_take,
    Nat.min_eq_left (Nat.sub_le cap l.length)]

/-- Folding bounded pushes over a feed keeps the newest cap items, newest
first. -/
lemma foldl_pushBounded (cap : ℕ) (xs acc : List α) (h : acc.length ≤ cap) :
    xs.foldl (fun c x => pushBounded cap x c) acc = (xs.reverse ++ acc).take cap := by
  induction xs generalizing acc with
  | nil => simpa using (List.take_of_length_le h).symm
  | cons x xs ih =>
    rw [List.foldl_cons]
    rw [ih (pushBounded cap x acc) (by simpa [pushBounded] using List.length_take_le cap _)]
    simp only [pushBounded, List.reverse_cons, List.append_assoc]
    rw [take_append_take]
    rfl

/-- Folding bounded pushes of mapped items over a feed keeps the newest
cap images, newest first. -/
lemma foldl_pushBounded_map (cap : ℕ) (f : β → α) (xs : List β) (acc : List α)
    (h : acc.length ≤ cap) :
    xs.foldl (fun c x => pushBounded cap (f x) c) acc
      = ((xs.map f).reverse ++ acc).take cap := by
  induction xs generalizing acc with
  | nil => simpa using (List.take_of_length_le h).symm
  | cons x xs ih =>
    rw [List.foldl_cons]
    rw [ih (pushBounded cap (f x) acc)
      (by simpa [pushBounded] using List.length_take_le cap _)]
    simp only [pushBounded, List.map_cons, List.reverse_cons, List.append_assoc]
    rw [take_append_take]
    rfl

/-- The trades-cache fold only touches the trades cache, through bounded
pushes. -/
lemma foldl_addTrade_cache (ts : List TradeOutcome) (st : LoggerState) :
    (ts.foldl addTradeToCache st).tradesCache
      = ts.foldl (fun c t => pushBounded tradesCacheCap t c) st.tradesCache := by
  induction ts generalizing st with
  | nil => rfl
  | cons t ts ih => rw [List.foldl_cons, List.foldl_cons, ih]; rfl

/-- Ingesting action-free events reduces, on the equity cache, to bounded
pushes of the events' equity points. -/
lemma foldl_ingest_equity (rs : List DecisionRecord) (st : LoggerState)
    (h : ∀ r ∈ rs, r.decisions = []) :
    (rs.foldl ingestRecord st).equityCache
      = rs.foldl
          (fun c r => pushBounded equityCacheCap
            { timestamp := r.timestamp, equity := r.accountState.totalBalance } c)
          st.equityCache := by
  induction rs generalizing st with
  | nil => rfl
  | cons r rs ih =>
    have hr : r.decisions = [] := h r (List.mem_cons_self r rs)
    rw [List.foldl_cons, List.foldl_cons,
      ih _ (fun x hx => h x (List.mem_cons_of_mem r hx))]
    simp [ingestRecord, hr, processDecisions]

/-- C5: both caches are bounded newest-first structures: the trades cache
holds at most 100 entries and the equity cache at most 200; feeding
N at least capacity items into an empty cache leaves exactly capacity
entries, newest first, the oldest N minus capacity items evicted. -/
theorem cache_capacity_bounds :
    tradesCacheCap = 100 ∧ equityCacheCap = 200 ∧
    (∀ (ts : List TradeOutcome) (st : LoggerState), st.tradesCache = [] →
      tradesCacheCap ≤ ts.length →
      (ts.foldl addTradeToCache st).tradesCache
          = (ts.drop (ts.length - tradesCacheCap)).reverse ∧
        (ts.foldl addTradeToCache st).tradesCache.length = tradesCacheCap) ∧
    (∀ (rs : List DecisionRecord) (st : LoggerState), st.equityCache = [] →
      (∀ r ∈ rs, r.decisions = []) → equityCacheCap ≤ rs.length →
      (rs.foldl ingestRecord st).equityCache
          = ((rs.map (fun r =>
                EquityPoint.mk r.timestamp r.accountState.totalBalance)).drop
              (rs.length - equityCacheCap)).reverse ∧
        (rs.foldl ingestRecord st).equityCache.length = equityCacheCap) := by
  refine ⟨rfl, rfl, ?_, ?_⟩
  · intro ts st hempty hlen
    have hmain : (ts.foldl addTradeToCache st).tradesCache
        = ts.reverse.take tradesCacheCap := by
      rw [foldl_addTrade_cache, hempty,
        foldl_pushBounded tradesCacheCap ts [] (by simp)]
      simp
    constructor
    · rw [hmain, List.reverse_drop]
      congr 1
      omega
    · rw [hmain]
      simp [List.length_take]
      omega
  · intro rs st hempty hdec hlen
    have hmain : (rs.foldl ingestRecord st).equityCache
        = ((rs.map (fun r =>
            EquityPoint.mk r.timestamp r.accountState.totalBalance)).reverse).take
          equityCacheCap := by
      rw [foldl_ingest_equity rs st hdec, hempty,
        foldl_pushBounded_map equityCacheCap
          (fun r => EquityPoint.mk r.timestamp r.accountState.totalBalance) rs []
          (by simp)]
      simp
    constructor
    · rw [hmain, List.reverse_drop]
      have harg : (rs.map (fun r =>
            EquityPoint.mk r.timestamp r.accountState.totalBalance)).length
          - (rs.length - equityCacheCap) = equityCacheCap := by
        rw [List.length_map]
        omega
      rw [harg]
    · rw [hmain]
      simp [List.length_take]
      omega

/-- Witness for C5: 120 trades leave a full 100-entry trades cache and 250
action-free events leave a full 200-entry equity cache. -/
theorem cache_capacity_bounds_witness :
    (emptyLogger.tradesCache = [] ∧
      tradesCacheCap ≤ ((List.range 120).map mkNumberedTrade).length ∧
      (((List.range 120).map mkNumberedTrade).foldl
          addTradeToCache emptyLogger).tradesCache.length = tradesCacheCap) ∧
    (emptyLogger.equityCache = [] ∧
      (∀ r ∈ (List.range 250).map mkNumberedHold, r.decisions = []) ∧
      equityCacheCap ≤ ((List.range 250).map mkNumberedHold).length ∧
      (((List.range 250).map mkNumberedHold).foldl
          ingestRecord emptyLogger).equityCache.length = equityCacheCap) := by
  have h1 : tradesCacheCap ≤ ((List.range 120).map mkNumberedTrade).length := by
    rw [List.length_map, List.length_range]
    decide
  have h2 : ∀ r ∈ (List.range 250).map mkNumberedHold, r.decisions = [] := by
    intro r hr
    rcases List.mem_map.1 hr with ⟨i, _, rfl⟩
    rfl
  have h3 : equityCacheCap ≤ ((List.range 250).map mkNumberedHold).length := by
    rw [List.length_map, List.length_range]
    decide
  exact ⟨⟨rfl, h1, (cache_capacity_bounds.2.2.1 _ emptyLogger rfl h1).2⟩,
    ⟨rfl, h2, h3, (cache_capacity_bounds.2.2.2 _ emptyLogger rfl h2 h3).2⟩⟩

/-- C10: a failed persisted-log append propagates as the call's error and
leaves the whole in-memory state (trades cache, equity cache and open
positions) exactly as it was: the append happens before any in-memory
update. -/
theorem logDecision_append_failure :
    ∀ (st : LoggerState) (r : DecisionRecord) (e : String),
      logDecision st r (some e) = (Except.error e, st) := by
  intro st r e
  rfl

/-- C1: every close slice adds to the position's accumulated net PnL
exactly the price-difference PnL of the closed quantity (long and short
symmetric) minus the open-side and close-side fees on that quantity; in
the concrete aster example (open_long 0.002 BTCUSDT at 103960.7, fee rate
0.00035, close_long at 103425.3) the emitted TradeOutcome's net PnL is
within 0.002 of -1.216. -/
theorem close_slice_net_pnl :
    (∀ (feeRate : ℚ) (a : DecisionAction) (st : OpenPositionState),
      a.quantity ≠ 0 → a.quantity ≤ st.quantityRemaining →
      (applyCloseSlice feeRate a st).accPnL
        = st.accPnL
          + ((if st.side == "long" then a.quantity * (a.price - st.entryPrice)
              else a.quantity * (st.entryPrice - a.price))
             - (a.quantity * st.entryPrice * feeRate
                + a.quantity * a.price * feeRate))) ∧
    c1Run.tradesCache.length = 1 ∧
    |c1Run.tradesCache.headI.pnl + 1216 / 1000| ≤ 2 / 1000 := by
  refine ⟨?_, ?_, ?_⟩
  · intro feeRate a st hq hle
    simp only [applyCloseSlice, if_neg hq, min_eq_left hle]
  · norm_num [c1Run, c1OpenAction, c1CloseAction, runLog, logDecision, ingestRecord,
      processDecisions, processAction, applyCloseSlice, mkOpenState, finishOutcome,
      addTradeToCache, pushBounded, getTakerFeeRate, isOpenKind, isCloseKind, epsQty,
      removePos, setPos, tradesCacheCap, equityCacheCap, List.lookup, min_def,
      List.foldl, emptyLogger]
  · norm_num [c1Run, c1OpenAction, c1CloseAction, runLog, logDecision, ingestRecord,
      processDecisions, processAction, applyCloseSlice, mkOpenState, finishOutcome,
      addTradeToCache, pushBounded, getTakerFeeRate, isOpenKind, isCloseKind, epsQty,
      removePos, setPos, tradesCacheCap, equityCacheCap, List.lookup, min_def,
      List.foldl, emptyLogger, List.headI, abs_le]

/-- Witness for C1: the per-slice PnL equation instantiated at the aster
example's close slice over the state opened by the example's open
action. -/
theorem close_slice_net_pnl_witness :
    c1CloseAction.quantity ≠ 0 ∧
    c1CloseAction.quantity ≤ (mkOpenState c1OpenAction).quantityRemaining ∧
    (applyCloseSlice (35 / 100000) c1CloseAction (mkOpenState c1OpenAction)).accPnL
      = (mkOpenState c1OpenAction).accPnL
        + ((if (mkOpenState c1OpenAction).side == "long" then
              c1CloseAction.quantity
                * (c1CloseAction.price - (mkOpenState c1OpenAction).entryPrice)
            else
              c1CloseAction.quantity
                * ((mkOpenState c1OpenAction).entryPrice - c1CloseAction.price))
           - (c1CloseAction.quantity * (mkOpenState c1OpenAction).entryPrice
                * (35 / 100000)
              + c1CloseAction.quantity * c1CloseAction.price * (35 / 100000))) := by
  have h1 : c1CloseAction.quantity ≠ 0 := by norm_num [c1CloseAction]
  have h2 : c1CloseAction.quantity ≤ (mkOpenState c1OpenAction).quantityRemaining := by
    norm_num [c1CloseAction, c1OpenAction, mkOpenState]
  exact ⟨h1, h2, close_slice_net_pnl.1 (35 / 100000) c1CloseAction
    (mkOpenState c1OpenAction) h1 h2⟩

/-- C2: closing a position in two slices at one price accumulates the same
net PnL, fees included, as one direct close of the summed quantity at that
price; and in the concrete hyperliquid example (open_long 1.0 ETHUSDT at
2000, partial_close 0.5 at 2100, close_long 0.5 at 2150) exactly one
TradeOutcome is produced, its net PnL within 0.01 of 123.14, counted as a
winning trade. -/
theorem partial_close_additive :
    (∀ (feeRate p q1 q2 : ℚ) (t1 t2 : ℕ) (sym : String) (st : OpenPositionState),
      0 < q1 → 0 < q2 → q1 + q2 ≤ st.quantityRemaining →
      (applyCloseSlice feeRate
          { action := "close_long", symbol := sym, quantity := q2, price := p,
            timestamp := t2 }
          (applyCloseSlice feeRate
            { action := "partial_close", symbol := sym, quantity := q1, price := p,
              timestamp := t1 } st)).accPnL
        = (applyCloseSlice feeRate
            { action := "close_long", symbol := sym, quantity := q1 + q2, price := p,
              timestamp := t2 } st).accPnL) ∧
    c2Analysis.totalTrades = 1 ∧
    c2Analysis.winningTrades = 1 ∧
    |c2Analysis.recentTrades.headI.pnl - 12314 / 100| ≤ 1 / 100 := by
  refine ⟨?_, ?_, ?_, ?_⟩
  · intro feeRate p q1 q2 t1 t2 sym st hq1 hq2 hsum
    have hq1n : q1 ≠ 0 := ne_of_gt hq1
    have hq2n : q2 ≠ 0 := ne_of_gt hq2
    have hsumn : q1 + q2 ≠ 0 := ne_of_gt (add_pos hq1 hq2)
    have h1le : q1 ≤ st.quantityRemaining := by linarith
    have h2le : q2 ≤ st.quantityRemaining - q1 := by linarith
    simp only [applyCloseSlice, if_neg hq1n, if_neg hq2n, if_neg hsumn,
      min_eq_left h1le, min_eq_left h2le, min_eq_left hsum]
    by_cases hside : (st.side == "long") = true
    · simp only [if_pos hside]
      ring
    · simp only [if_neg hside]
      ring
  · norm_num +decide [c2Analysis, c2Run, runLog, logDecision, ingestRecord,
      processDecisions, processAction, applyCloseSlice, mkOpenState, finishOutcome,
      addTradeToCache, pushBounded, getTakerFeeRate, isOpenKind, isCloseKind, epsQty,
      removePos, setPos, tradesCacheCap, equityCacheCap, List.lookup, min_def,
      List.foldl, emptyLogger, getPerformanceWithCache, analyzeFromCaches,
      List.isEmpty, List.filter_cons, List.filter_nil, decide_eq_true_eq]
  · norm_num +decide [c2Analysis, c2Run, runLog, logDecision, ingestRecord,
      processDecisions, processAction, applyCloseSlice, mkOpenState, finishOutcome,
      addTradeToCache, pushBounded, getTakerFeeRate, isOpenKind, isCloseKind, epsQty,
      removePos, setPos, tradesCacheCap, equityCacheCap, List.lookup, min_def,
      List.foldl, emptyLogger, getPerformanceWithCache, analyzeFromCaches,
      List.isEmpty, List.filter_cons, List.filter_nil, decide_eq_true_eq]
  · norm_num +decide [c2Analysis, c2Run, runLog, logDecision, ingestRecord,
      processDecisions, processAction, applyCloseSlice, mkOpenState, finishOutcome,
      addTradeToCache, pushBounded, getTakerFeeRate, isOpenKind, isCloseKind, epsQty,
      removePos, setPos, tradesCacheCap, equityCacheCap, List.lookup, min_def,
      List.foldl, emptyLogger, getPerformanceWithCache, analyzeFromCaches,
      List.isEmpty, List.filter_cons, List.filter_nil, decide_eq_true_eq,
      List.headI, abs_le]

/-- Witness for C2: the split-close additivity applied to the hyperliquid
example's numbers: closing 0.5 then 0.5 at 2100 from a 1.0 position opened
at 2000 equals one close of 1.0 at 2100. -/
theorem partial_close_additive_witness :
    (0 : ℚ) < 1 / 2 ∧
    (1 / 2 : ℚ) + 1 / 2 ≤ (mkOpenState c8OpenAction).quantityRemaining ∧
    (applyCloseSlice (45 / 100000)
        { action := "close_long", symbol := "BTCUSDT", quantity := 1 / 2,
          price := 2100, timestamp := 2 }
        (applyCloseSlice (45 / 100000)
          { action := "partial_close", symbol := "BTCUSDT", quantity := 1 / 2,
            price := 2100, timestamp := 1 } (mkOpenState c8OpenAction))).accPnL
      = (applyCloseSlice (45 / 100000)
          { action := "close_long", symbol := "BTCUSDT", quantity := 1 / 2 + 1 / 2,
            price := 2100, timestamp := 2 } (mkOpenState c8OpenAction)).accPnL := by
  have h1 : (0 : ℚ) < 1 / 2 := by norm_num
  have h2 : (1 / 2 : ℚ) + 1 / 2 ≤ (mkOpenState c8OpenAction).quantityRemaining := by
    norm_num [mkOpenState, c8OpenAction]
  exact ⟨h1, h2, partial_close_additive.1 (45 / 100000) 2100 (1 / 2) (1 / 2) 1 2
    "BTCUSDT" (mkOpenState c8OpenAction) h1 h1 h2⟩

/-- C8: a close action whose quantity field is zero (absent) closes the
entire remaining quantity: the reconstructor emits the completed
TradeOutcome for the full original quantity and deletes the open position,
instead of closing nothing; concretely, open_long 1.0 BTCUSDT at 50000 on
binance followed by close_long at 51000 with no quantity yields one cached
trade of quantity 1 and net PnL 949.5, with no position left open. -/
theorem zero_quantity_close_closes_all :
    (∀ (feeRate : ℚ) (ps : List (String × OpenPositionState)) (a : DecisionAction)
      (st : OpenPositionState),
      isCloseKind a.action = true → a.quantity = 0 →
      List.lookup a.symbol ps = some st →
      processAction feeRate ps a
          = (removePos a.symbol ps,
             some (finishOutcome a.symbol (applyCloseSlice feeRate a st))) ∧
        (finishOutcome a.symbol (applyCloseSlice feeRate a st)).quantity
          = st.originalQuantity ∧
        (applyCloseSlice feeRate a st).quantityRemaining = 0) ∧
    c8Run.tradesCache.length = 1 ∧
    c8Run.tradesCache.headI.quantity = 1 ∧
    c8Run.tradesCache.headI.pnl = 1899 / 2 ∧
    c8Run.openPositions = [] := by
  refine ⟨?_, ?_, ?_, ?_, ?_⟩
  · intro feeRate ps a st hclose hq0 hlk
    have hopen : isOpenKind a.action = false := by
      simp only [isCloseKind, Bool.or_eq_true, beq_iff_eq] at hclose
      rcases hclose with (h | h) | h <;> rw [h] <;> decide
    have hrem0 : (applyCloseSlice feeRate a st).quantityRemaining = 0 := by
      simp [applyCloseSlice, hq0]
    refine ⟨?_, ?_, hrem0⟩
    · simp [processAction, hopen, hclose, hlk, hrem0, epsQty]
    · simp [finishOutcome, applyCloseSlice]
  · norm_num +decide [c8Run, c8OpenAction, c8CloseAction, runLog, logDecision, ingestRecord,
      processDecisions, processAction, applyCloseSlice, mkOpenState, finishOutcome,
      addTradeToCache, pushBounded, getTakerFeeRate, isOpenKind, isCloseKind, epsQty,
      removePos, setPos, tradesCacheCap, equityCacheCap, List.lookup, min_def,
      List.foldl, emptyLogger]
  · norm_num +decide [c8Run, c8OpenAction, c8CloseAction, runLog, logDecision, ingestRecord,
      processDecisions, processAction, applyCloseSlice, mkOpenState, finishOutcome,
      addTradeToCache, pushBounded, getTakerFeeRate, isOpenKind, isCloseKind, epsQty,
      removePos, setPos, tradesCacheCap, equityCacheCap, List.lookup, min_def,
      List.foldl, emptyLogger, List.headI]
  · norm_num +decide [c8Run, c8OpenAction, c8CloseAction, runLog, logDecision, ingestRecord,
      processDecisions, processAction, applyCloseSlice, mkOpenState, finishOutcome,
      addTradeToCache, pushBounded, getTakerFeeRate, isOpenKind, isCloseKind, epsQty,
      removePos, setPos, tradesCacheCap, equityCacheCap, List.lookup, min_def,
      List.foldl, emptyLogger, List.headI]
  · norm_num +decide [c8Run, c8OpenAction, c8CloseAction, runLog, logDecision, ingestRecord,
      processDecisions, processAction, applyCloseSlice, mkOpenState, finishOutcome,
      addTradeToCache, pushBounded, getTakerFeeRate, isOpenKind, isCloseKind, epsQty,
      removePos, setPos, tradesCacheCap, equityCacheCap, List.lookup, min_def,
      List.foldl, emptyLogger]

/-- Witness for C8: the zero-quantity rule applied to the example's open
position. -/
theorem zero_quantity_close_closes_all_witness :
    isCloseKind c8CloseAction.action = true ∧
    c8CloseAction.quantity = 0 ∧
    List.lookup c8CloseAction.symbol
        [("BTCUSDT", mkOpenState c8OpenAction)] = some (mkOpenState c8OpenAction) ∧
    (applyCloseSlice (5 / 10000) c8CloseAction
        (mkOpenState c8OpenAction)).quantityRemaining = 0 := by
  have h1 : isCloseKind c8CloseAction.action = true := rfl
  have h2 : c8CloseAction.quantity = 0 := rfl
  have h3 : List.lookup c8CloseAction.symbol
      [("BTCUSDT", mkOpenState c8OpenAction)] = some (mkOpenState c8OpenAction) := rfl
  exact ⟨h1, h2, h3, (zero_quantity_close_closes_all.1 (5 / 10000)
    [("BTCUSDT", mkOpenState c8OpenAction)] c8CloseAction
    (mkOpenState c8OpenAction) h1 h2 h3).2.2⟩

/-- Every trade in a cache is strictly winning, strictly losing, or has
exactly zero PnL; the three counts partition the cache size. -/
lemma trade_count_partition (l : List TradeOutcome) :
    l.length = (l.filter (fun t => decide (0 < t.pnl))).length
      + (l.filter (fun t => decide (t.pnl < 0))).length
      + (l.filter (fun t => decide (t.pnl = 0))).length := by
  induction l with
  | nil => rfl
  | cons a l ih =>
    rcases lt_trichotomy a.pnl 0 with h | h | h
    · simp only [List.filter_cons, decide_eq_true_eq, if_pos h, if_neg (lt_asymm h),
        if_neg (ne_of_lt h), List.length_cons]
      omega
    · simp [List.filter_cons, decide_eq_true_eq, h]
      omega
    · simp only [List.filter_cons, decide_eq_true_eq, if_pos h, if_neg (lt_asymm h),
        if_neg (ne_of_gt h), List.length_cons]
      omega

set_option maxRecDepth 100000 in
set_option maxHeartbeats 2000000 in
/-- C4: the performance snapshot is consistent with the trades cache:
TotalTrades is the cache size, WinningTrades counts the trades with
positive PnL, a zero-PnL trade counts toward the total but toward neither
winners nor losers, WinRate is Winning over Total times 100 (0 for an
empty cache), and RecentTrades is the cache capped at the limit; the
concrete ten-trade run (six net-positive, four net-negative after binance
fees) yields WinningTrades 6, LosingTrades 4 and WinRate 60. -/
theorem performance_snapshot_consistency :
    (∀ (st : LoggerState) (limit : ℕ),
      (analyzeFromCaches st limit).totalTrades = st.tradesCache.length ∧
      (analyzeFromCaches st limit).winningTrades
        = (st.tradesCache.filter (fun t => decide (0 < t.pnl))).length ∧
      (analyzeFromCaches st limit).losingTrades
        = (st.tradesCache.filter (fun t => decide (t.pnl < 0))).length ∧
      (analyzeFromCaches st limit).totalTrades
        = (analyzeFromCaches st limit).winningTrades
          + (analyzeFromCaches st limit).losingTrades
          + (st.tradesCache.filter (fun t => decide (t.pnl = 0))).length ∧
      (analyzeFromCaches st limit).winRate
        = (if (analyzeFromCaches st limit).totalTrades = 0 then 0
           else ((analyzeFromCaches st limit).winningTrades : ℚ)
             / ((analyzeFromCaches st limit).totalTrades : ℚ) * 100) ∧
      (analyzeFromCaches st limit).recentTrades = st.tradesCache.take limit) ∧
    c4Analysis.totalTrades = 10 ∧ c4Analysis.winningTrades = 6 ∧
    c4Analysis.losingTrades = 4 ∧ c4Analysis.winRate = 60 := by
  refine ⟨?_, ?_, ?_, ?_, ?_⟩
  · intro st limit
    refine ⟨rfl, rfl, rfl, ?_, rfl, rfl⟩
    simpa only [analyzeFromCaches] using trade_count_partition st.tradesCache
  · norm_num +decide [c4Analysis, c4Records, c4Trade, runLog, logDecision,
      ingestRecord, processDecisions, processAction, applyCloseSlice, mkOpenState,
      finishOutcome, addTradeToCache, pushBounded, getTakerFeeRate, isOpenKind,
      isCloseKind, epsQty, removePos, setPos, tradesCacheCap, equityCacheCap,
      List.lookup, min_def, List.foldl, emptyLogger, getPerformanceWithCache,
      analyzeFromCaches, List.isEmpty, List.filter_cons, List.filter_nil,
      decide_eq_true_eq]
  · norm_num +decide [c4Analysis, c4Records, c4Trade, runLog, logDecision,
      ingestRecord, processDecisions, processAction, applyCloseSlice, mkOpenState,
      finishOutcome, addTradeToCache, pushBounded, getTakerFeeRate, isOpenKind,
      isCloseKind, epsQty, removePos, setPos, tradesCacheCap, equityCacheCap,
      List.lookup, min_def, List.foldl, emptyLogger, getPerformanceWithCache,
      analyzeFromCaches, List.isEmpty, List.filter_cons, List.filter_nil,
      decide_eq_true_eq]
  · norm_num +decide [c4Analysis, c4Records, c4Trade, runLog, logDecision,
      ingestRecord, processDecisions, processAction, applyCloseSlice, mkOpenState,
      finishOutcome, addTradeToCache, pushBounded, getTakerFeeRate, isOpenKind,
      isCloseKind, epsQty, removePos, setPos, tradesCacheCap, equityCacheCap,
      List.lookup, min_def, List.foldl, emptyLogger, getPerformanceWithCache,
      analyzeFromCaches, List.isEmpty, List.filter_cons, List.filter_nil,
      decide_eq_true_eq]
  · norm_num +decide [c4Analysis, c4Records, c4Trade, runLog, logDecision,
      ingestRecord, processDecisions, processAction, applyCloseSlice, mkOpenState,
      finishOutcome, addTradeToCache, pushBounded, getTakerFeeRate, isOpenKind,
      isCloseKind, epsQty, removePos, setPos, tradesCacheCap, equityCacheCap,
      List.lookup, min_def, List.foldl, emptyLogger, getPerformanceWithCache,
      analyzeFromCaches, List.isEmpty, List.filter_cons, List.filter_nil,
      decide_eq_true_eq]

/-- C6: the filtered reader returns, scanning newest to oldest, only
events with at least one real (non-hold, non-wait, case-insensitive)
action: every returned event has one, skipped events do not count against
the limit (the result length is the minimum of the limit and the number of
qualifying events), and over the concrete ten-event history with three
qualifying events any limit of at least 3 returns exactly those three,
newest first. -/
theorem filtered_record_reader :
    (∀ (st : LoggerState) (limit : ℕ),
      (getLatestRecordsWithFilter st limit true).all hasRealAction = true) ∧
    (∀ (st : LoggerState) (limit : ℕ),
      (getLatestRecordsWithFilter st limit true).length
        = min limit (st.log.filter hasRealAction).length) ∧
    getLatestRecordsWithFilter c6State 10 true
      = [c6Record 8 true, c6Record 4 true, c6Record 1 true] ∧
    getLatestRecordsWithFilter c6State 25 true
      = [c6Record 8 true, c6Record 4 true, c6Record 1 true] ∧
    hasRealAction { decisions := [{ action := "HOLD" }] } = false ∧
    hasRealAction { decisions := [{ action := "WAIT" }] } = false ∧
    hasRealAction { decisions := [{ action := "wait" }] } = false ∧
    hasRealAction { decisions := [] } = false ∧
    hasRealAction { decisions := [{ action := "close_long" }] } = true := by
  refine ⟨?_, ?_, by decide, by decide, by decide, by decide, by decide, by decide,
    by decide⟩
  · intro st limit
    simp only [getLatestRecordsWithFilter, if_pos]
    rw [List.all_eq_true]
    intro x hx
    exact List.of_mem_filter (List.mem_of_mem_take hx)
  · intro st limit
    simp [getLatestRecordsWithFilter, List.length_take, List.filter_reverse,
      List.length_reverse]
